import Mathlib

/-!
# Verification of `luapp`'s class-binding core (`src/LuaCpp/Details/Class.hpp`)

A shallow embedding of the Lua/C++ class binder `lpp::Class<CppClass>`.

The embedding models:
* the slice of the Lua C API the binder uses (`lua_pushstring`, `lua_pushvalue`,
  `lua_rawset`, `lua_pop`, `luaL_getmetatable`, `lua_newuserdata`,
  `luaL_setmetatable`) over an explicit state: a value stack, a table heap,
  the metatable registry (name-keyed, as in Lua's registry), and a userdata heap;
* the `Class<CppClass>` constructor (registration), `addMembers` /
  `addMember` overload dispatch, `copy`, `getName`, `isValid`, the static
  per-instantiation data (`className`, `valid`), and the `newInstance` entry
  point instantiated at a concrete example class `Point { x : Int; y : Int }`.

Instances passed to synthesized closures by pointer are modelled in
state-passing style: a closure takes the pointee value and returns the updated
pointee together with the (marshalled) result.  The marshalled value universe
is `RtVal` (integers and void), which covers the example classes used here.
-/

set_option autoImplicit false

namespace Luapp

/-- C++ types as far as the binder's synthesized signatures mention them:
`int`-like value types, `void`, `CppClass*` and `const CppClass*`
(classes identified by name). -/
inductive CppType where
  | tInt
  | void
  | ptr (cls : String)
  | constPtr (cls : String)
deriving DecidableEq, Repr

/-- Marshalled runtime values flowing through synthesized closures. -/
inductive RtVal where
  | int (n : Int)
  | unit
deriving DecidableEq, Repr

/-- A `CppFunction<Ret, Args...>` wrapper: the template parameters it was
instantiated with (`retTy`, `argTys`, in source order) together with the
semantics of the wrapped native callable, in state-passing style over the
instance type `ι` (the pointee of the leading self parameter). -/
structure Closure (ι : Type) where
  retTy : CppType
  argTys : List CppType
  sem : ι → List RtVal → ι × RtVal

/-- Identity of a pushed `&newInstance<CstrArgs...>` C function: one per
(class, constructor signature) template instantiation. -/
structure EntryTag where
  cls : String
  ctorArgs : List CppType
deriving DecidableEq, Repr

/-- Lua values as used by the binder. `table` and `userdata` are references
into the corresponding heaps of `LuaState`. -/
inductive LuaValue (ι : Type) where
  | nil
  | str (s : String)
  | int (n : Int)
  | table (id : Nat)
  | cfun (c : Closure ι)
  | centry (e : EntryTag)
  | userdata (id : Nat)

/-- A Lua table restricted to string keys (the only keys the binder uses).
`rawset` prepends, so `rawget`'s first match is the last write. -/
abbrev Table (ι : Type) := List (String × LuaValue ι)

/-- `lua_rawget` on a string key: the most recent binding wins. -/
def Table.rawget {ι : Type} : Table ι → String → Option (LuaValue ι)
  | [], _ => none
  | (k', v) :: rest, k => if k' = k then some v else Table.rawget rest k

/-- `lua_rawset` on a string key. -/
def Table.rawsetK {ι : Type} (t : Table ι) (k : String) (v : LuaValue ι) : Table ι :=
  (k, v) :: t

/-- A userdata block: its allocated size in bytes, its payload (the native
object placement-constructed inside it, `none` while still raw memory), and
its metatable (a table id), if set. -/
structure Userdata (ι : Type) where
  size : Nat
  payload : Option ι
  meta : Option Nat

/-- The slice of a `lua_State` the binder touches: the value stack (head is
the top), the table heap (ids are list indices), the registry's metatable
entries (name-keyed, as `luaL_newmetatable`/`luaL_getmetatable` key them), and
the userdata heap. -/
structure LuaState (ι : Type) where
  stack : List (LuaValue ι)
  tables : List (Table ι)
  registry : List (String × Nat)
  userdatas : List (Userdata ι)

namespace LuaState

variable {ι : Type}

/-- Registry lookup by metatable name (`lua_getfield(L, LUA_REGISTRYINDEX, name)`). -/
def registryLookup : List (String × Nat) → String → Option Nat
  | [], _ => none
  | (k, tid) :: rest, n => if k = n then some tid else registryLookup rest n

def push (s : LuaState ι) (v : LuaValue ι) : LuaState ι :=
  { s with stack := v :: s.stack }

/-- `lua_pushstring`. -/
def pushstring (s : LuaState ι) (x : String) : LuaState ι :=
  s.push (.str x)

/-- `lua_pushvalue(L, -(k+1))`: push a copy of the value `k` below the top. -/
def pushvalue (s : LuaState ι) (k : Nat) : LuaState ι :=
  match s.stack.get? k with
  | some v => s.push v
  | none => s.push .nil

/-- `lua_pop(L, k)`. -/
def pop (s : LuaState ι) (k : Nat) : LuaState ι :=
  { s with stack := s.stack.drop k }

/-- `lua_rawset(L, -3)` with a string key, the only form the binder uses:
value on top, key below it, target table below that; pops key and value and
stores into the table. (If the stack does not have that shape the C program
would raise a Lua error; the model leaves the state with key/value popped,
which no theorem below relies on.) -/
def rawset (s : LuaState ι) : LuaState ι :=
  match s.stack with
  | v :: .str k :: rest =>
    match rest with
    | .table tid :: _ =>
      { s with
        stack := rest
        tables := s.tables.set tid (Table.rawsetK (s.tables.getD tid []) k v) }
    | _ => { s with stack := rest }
  | _ => s

/-- `luaL_getmetatable(L, n)`: push `registry[n]`, or nil when absent. -/
def getmetatable (s : LuaState ι) (n : String) : LuaState ι :=
  match registryLookup s.registry n with
  | some tid => s.push (.table tid)
  | none => s.push .nil

/-- `lua_newuserdata(L, size)`: allocate a fresh raw block of `size` bytes,
push it, and return its id. -/
def newuserdata (s : LuaState ι) (size : Nat) : LuaState ι × Nat :=
  let uid := s.userdatas.length
  ({ s with
      userdatas := s.userdatas ++ [⟨size, none, none⟩]
      stack := .userdata uid :: s.stack }, uid)

/-- Placement-construct the native value `v` inside userdata block `uid`. -/
def udWrite (s : LuaState ι) (uid : Nat) (v : ι) : LuaState ι :=
  { s with
    userdatas := s.userdatas.set uid
      { s.userdatas.getD uid ⟨0, none, none⟩ with payload := some v } }

/-- `luaL_setmetatable(L, n)`: set the metatable of the value on top of the
stack (a userdata in the binder's only use) to `registry[n]`. -/
def setmetatable (s : LuaState ι) (n : String) : LuaState ι :=
  match s.stack with
  | .userdata uid :: _ =>
    { s with
      userdatas := s.userdatas.set uid
        { s.userdatas.getD uid ⟨0, none, none⟩ with
            meta := registryLookup s.registry n } }
  | _ => s

end LuaState

/-- A C++ data-member pointer `F CppClass::*` for an `int`-like field,
embedded as its read (`self->*t`) and write (`self->*t = val`) actions.
`write_read` is the C++ object-model fact that reading a data member right
after assigning it yields the assigned value. -/
structure DataMember (ι : Type) where
  read : ι → Int
  write : ι → Int → ι
  write_read : ∀ self v, read (write self v) = v

/-- One `(name, member)` argument pair of the variadic registration call,
split by the `addMember` overload that receives it:
mutating method `Ret (CppClass::*)(Args...)`, read-only method
`Ret (CppClass::*)(Args...) const`, mutable data member `T CppClass::*`,
or immutable data member `const T CppClass::*`. -/
inductive MemDesc (ι : Type) where
  | method (argTys : List CppType) (retTy : CppType) (sem : ι → List RtVal → ι × RtVal)
  | constMethod (argTys : List CppType) (retTy : CppType) (sem : ι → List RtVal → ι × RtVal)
  | var (fieldTy : CppType) (dm : DataMember ι)
  | constVar (fieldTy : CppType) (read : ι → Int)

/-- The per-instantiation static data of `Class<CppClass>`:
`className` and `valid` (the `Functions*` pointer is modelled by threading
the pointed-to store through registration explicitly). -/
structure ClassStatics where
  className : String
  valid : Bool
deriving DecidableEq, Repr

/-- The static initializers: `className = ""`, `valid = false`. -/
def ClassStatics.init : ClassStatics := ⟨"", false⟩

/-- `getName`: returns the static `className`. -/
def Class.getName (st : ClassStatics) : String := st.className

/-- `isValid`: returns the static `valid`. -/
def Class.isValid (st : ClassStatics) : Bool := st.valid

/-- Compile-time identity of the `Class<CppClass>` instantiation being
registered: the class (naming the pointee type of synthesized self
parameters) and the constructor signature `CstrArgs...`. -/
structure RegConfig where
  cls : String
  ctorArgs : List CppType

/-- The synthesized setter closure for a mutable field:
`CppFunction<void, CppClass*, T>` wrapping
`[=](CppClass* self, T val) { self->*t = val; }`. -/
def setterClosure {ι : Type} (cls : String) (fieldTy : CppType) (dm : DataMember ι) :
    Closure ι :=
  { retTy := .void
    argTys := [.ptr cls, fieldTy]
    sem := fun self args =>
      match args with
      | [.int v] => (dm.write self v, .unit)
      | _ => (self, .unit) }

/-- The synthesized getter closure for a field:
`CppFunction<T, const CppClass*>` wrapping
`[=](const CppClass* self) { return self->*t; }`. -/
def getterClosure {ι : Type} (cls : String) (fieldTy : CppType) (read : ι → Int) :
    Closure ι :=
  { retTy := fieldTy
    argTys := [.constPtr cls]
    sem := fun self _ => (self, .int (read self)) }

/-- The wrapper built for a (mutating or read-only) method:
`CppFunction<Ret, CppClass*, Args...>` — note the source builds the same
`CppClass*` first parameter in both the non-const overload (line 134) and the
const overload (line 144). -/
def methodClosure {ι : Type} (cls : String) (argTys : List CppType) (retTy : CppType)
    (sem : ι → List RtVal → ι × RtVal) : Closure ι :=
  { retTy := retTy
    argTys := .ptr cls :: argTys
    sem := sem }

/-- `addMember`, one overload per `MemDesc` shape.  Each entry pushes the
name, constructs the `CppFunction` (which pushes the Lua closure and is
`emplace_back`ed into the shared store), then `lua_rawset(L, -3)`s it into
the metatable sitting under the pushed pair.  The mutable-field overload
installs the setter under `"set_" + name` first, then the getter under
`name`; the const-field overload installs only the getter. -/
def addMember {ι : Type} (cfg : RegConfig) (s : LuaState ι) (fns : List (Closure ι))
    (n : String) : MemDesc ι → LuaState ι × List (Closure ι)
  | .method argTys retTy sem =>
    let c := methodClosure cfg.cls argTys retTy sem
    let s := s.pushstring n
    let fns := fns ++ [c]
    let s := s.push (.cfun c)
    (s.rawset, fns)
  | .constMethod argTys retTy sem =>
    let c := methodClosure cfg.cls argTys retTy sem
    let s := s.pushstring n
    let fns := fns ++ [c]
    let s := s.push (.cfun c)
    (s.rawset, fns)
  | .var fieldTy dm =>
    let setter := setterClosure cfg.cls fieldTy dm
    let s := s.pushstring ("set_" ++ n)
    let fns := fns ++ [setter]
    let s := s.push (.cfun setter)
    let s := s.rawset
    let getter := getterClosure cfg.cls fieldTy dm.read
    let s := s.pushstring n
    let fns := fns ++ [getter]
    let s := s.push (.cfun getter)
    (s.rawset, fns)
  | .constVar fieldTy read =>
    let getter := getterClosure cfg.cls fieldTy read
    let s := s.pushstring n
    let fns := fns ++ [getter]
    let s := s.push (.cfun getter)
    (s.rawset, fns)

/-- `addMembers`: recursively bind every supplied `(name, member)` pair, in
the order supplied. -/
def addMembersL {ι : Type} (cfg : RegConfig) (s : LuaState ι) (fns : List (Closure ι)) :
    List (String × MemDesc ι) → LuaState ι × List (Closure ι)
  | [] => (s, fns)
  | (n, m) :: rest =>
    let p := addMember cfg s fns n m
    addMembersL cfg p.1 p.2 rest

/-- Result of running the `Class<CppClass>` constructor: the mutated Lua
state, the class's static data, and the contents of the caller-supplied
`Functions` store. -/
structure RegResult (ι : Type) where
  state : LuaState ι
  statics : ClassStatics
  store : List (Closure ι)

/-- The body of the `Class<CppClass>` constructor, everything up to but not
including the final `valid = true` (source lines 71–93): set the static
`className`, fetch the metatable, wire `__index` to the metatable itself,
install the `new` entry point, bind all members, pop the metatable. -/
def registerBody {ι : Type} (cfg : RegConfig) (s : LuaState ι) (n : String)
    (prior : ClassStatics) (fns : List (Closure ι))
    (mems : List (String × MemDesc ι)) : RegResult ι :=
  let st := { prior with className := n }
  let s := s.getmetatable n
  let s := s.pushstring "__index"
  let s := s.pushvalue 1
  let s := s.rawset
  let s := s.pushstring "new"
  let s := s.push (.centry ⟨cfg.cls, cfg.ctorArgs⟩)
  let s := s.rawset
  let p := addMembersL cfg s fns mems
  let s := p.1.pop 1
  ⟨s, st, p.2⟩

/-- The full `Class<CppClass>` constructor (source lines 71–96): the body,
then `valid = true` as the final step. -/
def registerClass {ι : Type} (cfg : RegConfig) (s : LuaState ι) (n : String)
    (prior : ClassStatics) (fns : List (Closure ι))
    (mems : List (String × MemDesc ι)) : RegResult ι :=
  let r := registerBody cfg s n prior fns mems
  ⟨r.state, { r.statics with valid := true }, r.store⟩

/-- `Class<CppClass>::copy(addrNew, other)`: placement-construct a copy of
`other` inside the buffer at `addrNew` (userdata block `uid`) via the copy
constructor; with value semantics the copy-constructed object equals `other`. -/
def Class.copy {ι : Type} (s : LuaState ι) (uid : Nat) (other : ι) : LuaState ι :=
  s.udWrite uid other

/-! ## A concrete example class

`Point { int x; int y; }` with constructor `Point(int, int)`, mirroring the
class used throughout the spec's scenarios.  `newInstance` is a template over
`CppClass` and `CstrArgs...`; the embedding instantiates it at this class. -/

structure Point where
  x : Int
  y : Int
deriving DecidableEq, Repr

/-- Model constant standing for `sizeof(Point)`; its value is immaterial,
only that every allocation for `Point` requests exactly this many bytes. -/
def sizeofPoint : Nat := 16

/-- The data-member pointer `&Point::x`. -/
def Point.xMember : DataMember Point :=
  ⟨Point.x, fun p v => { p with x := v }, fun _ _ => rfl⟩

/-- The data-member pointer `&Point::y`. -/
def Point.yMember : DataMember Point :=
  ⟨Point.y, fun p v => { p with y := v }, fun _ _ => rfl⟩

/-- Modelled from the spec: the argument-decoding collaborator
`detail::getTuple<int, int>` (declared in headers not under `src/`), the
"argument-decoding primitive" of §6: it "reads the runtime's current call
stack and produces a strongly-typed tuple matching a statically declared
signature", i.e. stack positions 1 and 2 (counted from the bottom of the
call frame); behaviour on a mismatched stack is the collaborator's
undefined case, modelled as `none`. -/
def getTuple2Int {ι : Type} (s : LuaState ι) : Option (Int × Int) :=
  match s.stack.reverse with
  | .int a :: .int b :: _ => some (a, b)
  | _ => none

/-- `Class<Point>::factory(addr, args, indices<0, 1>)`: placement-construct
`Point(std::get<0>(args), std::get<1>(args))`.  Modelled from the spec for
the index pack: `detail::indicesBuilder<2>` (defined in headers not under
`src/`) produces the ascending indices `0, 1`, so the constructor receives
"that exact argument list" in order. -/
def Point.factory (args : Int × Int) : Point :=
  Point.mk args.1 args.2

/-- `Class<Point>::newInstance<int, int>(lua_State*)` (source lines 191–206):
decode the argument tuple, allocate a `sizeof(Point)`-byte userdata (pushed
by `lua_newuserdata`), placement-construct via `factory`, tag the userdata
with the metatable registered under the static `className`, and return 1.
`st` is the static data of `Class<Point>` at call time.  `none` models the
decoding collaborator's undefined-behaviour case (mismatched arguments). -/
def newInstancePoint (st : ClassStatics) (s : LuaState Point) :
    Option (LuaState Point × Nat) :=
  match getTuple2Int s with
  | none => none
  | some args =>
    let p := s.newuserdata sizeofPoint
    let s := p.1.udWrite p.2 (Point.factory args)
    let s := s.setmetatable st.className
    some (s, 1)

/-- A Lua state right after the embedding layer has created a fresh, empty
metatable for `n` (registry entry `n ↦ 0`), the state in which the
`Class` constructor is entered. -/
def initStateWithMeta (ι : Type) (n : String) : LuaState ι :=
  ⟨[], [[]], [(n, 0)], []⟩

/-! ## Concrete scenario data

Small concrete registrations used to instantiate the theorems below. -/

/-- A read-only method `int getX() const` on `Point`:
`[p] { return p.x; }` in state-passing form. -/
def constMethodDemoSem : Point → List RtVal → Point × RtVal := fun p _ => (p, .int p.x)

/-- Registration of `Point` exposing the single const method `getX`. -/
def constMethodReg : RegResult Point :=
  registerClass ⟨"Point", [.tInt, .tInt]⟩ (initStateWithMeta Point "Point") "Point"
    ClassStatics.init [] [("getX", .constMethod [] .tInt constMethodDemoSem)]

/-- A method of the first demo class `T1` (its instances carry no data). -/
def semA : Unit → List RtVal → Unit × RtVal := fun u _ => (u, .int 1)

/-- A method of the second demo class `T2`. -/
def semB : Unit → List RtVal → Unit × RtVal := fun u _ => (u, .int 2)

/-- Registration of class `T1` under the Lua name `"Obj"` with method `a`. -/
def regT1 : RegResult Unit :=
  registerClass ⟨"T1", []⟩ (initStateWithMeta Unit "Obj") "Obj" ClassStatics.init []
    [("a", .method [] .tInt semA)]

/-- Registration of a second, distinct class `T2` under the same Lua name
`"Obj"` (with its own statics and its own store), after `T1`'s. -/
def regT2 : RegResult Unit :=
  registerClass ⟨"T2", []⟩ regT1.state "Obj" ClassStatics.init []
    [("b", .method [] .tInt semB)]

/-- A state holding one raw `Point`-sized userdata buffer, the target of a
`copy`. -/
def copyDemoState : LuaState Point :=
  ⟨[], [[]], [("Point", 0)], [⟨sizeofPoint, none, none⟩]⟩

/-- A trivial `void` method used in the stack-balance witness. -/
def stackDemoSem : Unit → List RtVal → Unit × RtVal := fun u _ => (u, .unit)

/-! ## Helper lemmas -/

theorem setPrefix_ne (n : String) : ("set_" ++ n) ≠ n := by
  intro h
  have h2 : ("set_" ++ n).length = n.length := congrArg String.length h
  rw [String.length_append] at h2
  have h3 : ("set_" : String).length = 4 := rfl
  omega

theorem setPrefix_ne_new (n : String) : ("set_" ++ n) ≠ "new" := by
  intro h
  have h2 : ("set_" ++ n).length = ("new" : String).length := congrArg String.length h
  rw [String.length_append] at h2
  have h3 : ("set_" : String).length = 4 := rfl
  have h4 : ("new" : String).length = 3 := rfl
  omega

theorem setPrefix_ne_index (n : String) : ("set_" ++ n) ≠ "__index" := by
  intro h
  have h2 : ("set_" ++ n).data = ("__index" : String).data := congrArg String.data h
  rw [String.data_append] at h2
  have h4 : ("set_" : String).data = ['s', 'e', 't', '_'] := rfl
  have h5 : ("__index" : String).data = ['_', '_', 'i', 'n', 'd', 'e', 'x'] := rfl
  rw [h4, h5] at h2
  simp only [List.cons_append] at h2
  injection h2 with hhead _
  exact absurd hhead (by decide)

theorem set_append_length {α : Type} (l : List α) (a b : α) :
    (l ++ [a]).set l.length b = l ++ [b] := by
  induction l with
  | nil => rfl
  | cons x xs ih => simp [List.set, ih]

theorem get?_append_length {α : Type} (l : List α) (a : α) :
    (l ++ [a]).get? l.length = some a := by
  induction l with
  | nil => rfl
  | cons x xs ih => simp [ih]

theorem getD_append_length {α : Type} (l : List α) (a d : α) :
    (l ++ [a]).getD l.length d = a := by
  simp [List.getD, get?_append_length]

theorem get?_set_lt {α : Type} : ∀ (l : List α) (i : Nat) (a : α), i < l.length →
    (l.set i a)[i]? = some a
  | _ :: _, 0, _, _ => by simp
  | _ :: xs, i + 1, a, h => by simpa using get?_set_lt xs i a (by simpa using h)

/-- Each `addMember` overload pushes one name and one callable and then
`rawset`s both into the table below them, so the stack shape
`metatable :: rest` is preserved. -/
theorem addMember_stack {ι : Type} (cfg : RegConfig) (s : LuaState ι)
    (fns : List (Closure ι)) (n : String) (m : MemDesc ι) (t : Nat)
    (rest : List (LuaValue ι)) (h : s.stack = .table t :: rest) :
    (addMember cfg s fns n m).1.stack = .table t :: rest := by
  cases m <;>
    simp [addMember, LuaState.pushstring, LuaState.push, LuaState.rawset, h]

/-- `addMembers` preserves the stack: the metatable stays on top throughout
member binding. -/
theorem addMembersL_stack {ι : Type} (cfg : RegConfig)
    (mems : List (String × MemDesc ι)) :
    ∀ (s : LuaState ι) (fns : List (Closure ι)) (t : Nat)
      (rest : List (LuaValue ι)), s.stack = .table t :: rest →
      (addMembersL cfg s fns mems).1.stack = .table t :: rest := by
  induction mems with
  | nil => intro s fns t rest h; simpa [addMembersL] using h
  | cons p ps ih =>
    intro s fns t rest h
    exact ih _ _ t rest (addMember_stack cfg s fns p.1 p.2 t rest h)

/-! ## Claims -/

/-- Claim C1: invoking the synthesized `new` entry point with arguments
matching the registered constructor signature decodes the runtime argument
stack into the ordered argument tuple, placement-constructs the class inside
a fresh buffer of exactly `sizeof(T)` bytes obtained from the runtime, tags
that buffer with the metatable registered under the class name, and returns
exactly one value; the constructed instance's state equals that produced by
direct native construction (`Point.mk a b`) with the same arguments. -/
theorem newInstance_correct (st : ClassStatics) (s : LuaState Point) (a b : Int)
    (tid : Nat) (hstack : s.stack = [.int b, .int a])
    (hreg : LuaState.registryLookup s.registry st.className = some tid) :
    newInstancePoint st s =
      some ({ s with
              stack := .userdata s.userdatas.length :: s.stack
              userdatas := s.userdatas ++
                [⟨sizeofPoint, some (Point.mk a b), some tid⟩] }, 1) := by
  unfold newInstancePoint getTuple2Int
  rw [hstack]
  simp [LuaState.newuserdata, LuaState.udWrite, LuaState.setmetatable,
    set_append_length, getD_append_length, hreg, Point.factory, hstack]

/-- `newInstance_correct` evaluated at the call `Point.new(3, 4)`. -/
theorem newInstance_correct_witness :
    newInstancePoint ⟨"Point", true⟩ ⟨[.int 4, .int 3], [[]], [("Point", 0)], []⟩ =
      some (⟨[.userdata 0, .int 4, .int 3], [[]], [("Point", 0)],
             [⟨sizeofPoint, some (Point.mk 3 4), some 0⟩]⟩, 1) :=
  newInstance_correct ⟨"Point", true⟩ ⟨[.int 4, .int 3], [[]], [("Point", 0)], []⟩
    3 4 0 rfl rfl

/-- Claim C2: for a registered mutable (non-const) field, the synthesized
setter is installed under `"set_" ++ name` and the getter under `name`;
invoking the setter with `(instance, v)` and then the getter on the same
instance returns exactly `v`, for every instance and every value (the getter
returns the field by value, the setter assigns through the member pointer). -/
theorem mutableField_roundtrip {ι : Type} (cls nReg fname : String) (fTy : CppType)
    (cfgArgs : List CppType) (dm : DataMember ι) :
    let r := registerClass ⟨cls, cfgArgs⟩ (initStateWithMeta ι nReg) nReg
      ClassStatics.init [] [(fname, .var fTy dm)]
    let mt := r.state.tables.getD 0 []
    Table.rawget mt ("set_" ++ fname) = some (.cfun (setterClosure cls fTy dm)) ∧
    Table.rawget mt fname = some (.cfun (getterClosure cls fTy dm.read)) ∧
    ∀ (p : ι) (v : Int),
      ((setterClosure cls fTy dm).sem p [.int v]).2 = .unit ∧
      (getterClosure cls fTy dm.read).sem ((setterClosure cls fTy dm).sem p [.int v]).1 []
        = (((setterClosure cls fTy dm).sem p [.int v]).1, .int v) := by
  have hne : fname ≠ "set_" ++ fname := (setPrefix_ne fname).symm
  refine ⟨?_, ?_, ?_⟩
  · simp [registerClass, registerBody, addMembersL, addMember, initStateWithMeta,
      LuaState.getmetatable, LuaState.registryLookup, LuaState.pushstring,
      LuaState.push, LuaState.pushvalue, LuaState.rawset, LuaState.pop,
      Table.rawsetK, Table.rawget, hne]
  · simp [registerClass, registerBody, addMembersL, addMember, initStateWithMeta,
      LuaState.getmetatable, LuaState.registryLookup, LuaState.pushstring,
      LuaState.push, LuaState.pushvalue, LuaState.rawset, LuaState.pop,
      Table.rawsetK, Table.rawget]
  · intro p v
    simp [setterClosure, getterClosure, dm.write_read]

/-- Claim C3, counterexample: binding the const method `getX` of `Point`
installs a wrapper whose first parameter is `Point*` (`CppType.ptr`), not a
read-only `const Point*` (`CppType.constPtr`) — the const-method overload at
line 144 of `Class.hpp` instantiates `CppFunction<Ret, CppClass*, Args...>`,
the same mutable self pointer as the non-const overload. -/
theorem constMethod_firstParam_not_const :
    Table.rawget (constMethodReg.state.tables.getD 0 []) "getX" =
      some (.cfun (methodClosure "Point" [] .tInt constMethodDemoSem)) ∧
    (methodClosure "Point" [] .tInt constMethodDemoSem).argTys.head? ≠
      some (.constPtr "Point") :=
  ⟨rfl, by decide⟩

/-- Claim C3, amended: for every bound read-only (const-qualified) method, the
synthesized wrapper takes the owning instance as a mutable pointer
(`CppClass*`, exactly as the non-const overload does), with the method's
declared parameters following and the return type passed through unchanged. -/
theorem constMethod_wrapper_shape {ι : Type} (cls nReg mname : String)
    (cfgArgs argTys : List CppType) (retTy : CppType)
    (sem : ι → List RtVal → ι × RtVal) :
    let r := registerClass ⟨cls, cfgArgs⟩ (initStateWithMeta ι nReg) nReg
      ClassStatics.init [] [(mname, .constMethod argTys retTy sem)]
    Table.rawget (r.state.tables.getD 0 []) mname =
      some (.cfun ⟨retTy, .ptr cls :: argTys, sem⟩) := by
  simp [registerClass, registerBody, addMembersL, addMember, initStateWithMeta,
    LuaState.getmetatable, LuaState.registryLookup, LuaState.pushstring,
    LuaState.push, LuaState.pushvalue, LuaState.rawset, LuaState.pop,
    Table.rawsetK, Table.rawget, methodClosure]

/-- Claim C4: registering an immutable (const) field installs exactly one
entry for it (the getter, under the field's name), no `set_<name>` entry
exists in the type tag table after registration, and no setter is synthesized
at all (the store receives only the getter). -/
theorem constField_getter_only {ι : Type} (cls nReg fname : String)
    (cfgArgs : List CppType) (fTy : CppType) (read : ι → Int)
    (h1 : fname ≠ "new") (h2 : fname ≠ "__index") :
    let r := registerClass ⟨cls, cfgArgs⟩ (initStateWithMeta ι nReg) nReg
      ClassStatics.init [] [(fname, .constVar fTy read)]
    let mt := r.state.tables.getD 0 []
    Table.rawget mt fname = some (.cfun (getterClosure cls fTy read)) ∧
    Table.rawget mt ("set_" ++ fname) = none ∧
    (mt.filter (fun e => e.1 = fname)).length = 1 ∧
    r.store = [getterClosure cls fTy read] := by
  have hne1 : fname ≠ "set_" ++ fname := (setPrefix_ne fname).symm
  have hne2 : ("new" : String) ≠ "set_" ++ fname := (setPrefix_ne_new fname).symm
  have hne3 : ("__index" : String) ≠ "set_" ++ fname := (setPrefix_ne_index fname).symm
  have hne4 : ("new" : String) ≠ fname := h1.symm
  have hne5 : ("__index" : String) ≠ fname := h2.symm
  refine ⟨?_, ?_, ?_, ?_⟩ <;>
    simp [registerClass, registerBody, addMembersL, addMember, initStateWithMeta,
      LuaState.getmetatable, LuaState.registryLookup, LuaState.pushstring,
      LuaState.push, LuaState.pushvalue, LuaState.rawset, LuaState.pop,
      Table.rawsetK, Table.rawget, hne1, hne2, hne3, hne4, hne5]

/-- `constField_getter_only` evaluated at the const field `f` of `Point`. -/
theorem constField_getter_only_witness :
    ("f" : String) ≠ "new" ∧ ("f" : String) ≠ "__index" ∧
    (let r := registerClass ⟨"Point", [.tInt, .tInt]⟩ (initStateWithMeta Point "Point")
       "Point" ClassStatics.init [] [("f", .constVar .tInt Point.x)]
     let mt := r.state.tables.getD 0 []
     Table.rawget mt "f" = some (.cfun (getterClosure "Point" .tInt Point.x)) ∧
     Table.rawget mt ("set_" ++ "f") = none ∧
     (mt.filter (fun e => e.1 = "f")).length = 1 ∧
     r.store = [getterClosure "Point" .tInt Point.x]) :=
  ⟨by decide, by decide,
   constField_getter_only "Point" "Point" "f" [.tInt, .tInt] .tInt Point.x
     (by decide) (by decide)⟩

/-- Claim C5: `getName` returns the exact string passed to registration, and
before any registration it returns the empty string (the static initializer),
a defined, non-erroneous result. -/
theorem registeredName_spec {ι : Type} (cfg : RegConfig) (s : LuaState ι) (n : String)
    (prior : ClassStatics) (fns : List (Closure ι))
    (mems : List (String × MemDesc ι)) :
    Class.getName (registerClass cfg s n prior fns mems).statics = n ∧
    Class.getName ClassStatics.init = "" := by
  constructor
  · simp [registerClass, registerBody, Class.getName]
  · rfl

/-- Claim C6: the validity flag starts `false` (static initializer), is left
untouched by the whole registration body (metatable wiring, `new`
installation, member binding, metatable pop), becomes `true` only as the
final step of registration, and no operation ever sets it back to `false`
(registration is the only operation that produces statics, and its result
always has `valid = true`). -/
theorem valid_lifecycle {ι : Type} (cfg : RegConfig) (s : LuaState ι) (n : String)
    (prior : ClassStatics) (fns : List (Closure ι))
    (mems : List (String × MemDesc ι)) :
    Class.isValid ClassStatics.init = false ∧
    (registerBody cfg s n prior fns mems).statics.valid = prior.valid ∧
    Class.isValid (registerClass cfg s n prior fns mems).statics = true := by
  refine ⟨rfl, ?_, ?_⟩
  · simp [registerBody]
  · simp [registerClass, Class.isValid]

/-- Claim C7, counterexample: registering two distinct classes `T1` and `T2`
under the same name `"Obj"` does not produce independent type tags — the
registry is keyed by the name, both registrations fetch the same metatable,
and the entry `a` installed for `T1` is visible through the type tag under
which `T2` was registered. -/
theorem sameName_crosstalk :
    LuaState.registryLookup regT2.state.registry "Obj" = some 0 ∧
    Table.rawget (regT2.state.tables.getD 0 []) "a" =
      some (.cfun (methodClosure "T1" [] .tInt semA)) :=
  ⟨rfl, rfl⟩

/-- Claim C7, amended: registering two distinct classes under the same name
shares one type tag (`luaL_getmetatable` keys the registry by name): members
of both classes are visible through the shared metatable and the later
registration overwrites the `new` entry; only the per-instantiation static
state (`className`, `valid`) and, when separate stores are supplied, the
callable stores are independent between `ClassBinding<T1>` and
`ClassBinding<T2>`. -/
theorem sameName_shared_tag :
    LuaState.registryLookup regT1.state.registry "Obj" = some 0 ∧
    LuaState.registryLookup regT2.state.registry "Obj" = some 0 ∧
    Table.rawget (regT2.state.tables.getD 0 []) "a" =
      some (.cfun (methodClosure "T1" [] .tInt semA)) ∧
    Table.rawget (regT2.state.tables.getD 0 []) "b" =
      some (.cfun (methodClosure "T2" [] .tInt semB)) ∧
    Table.rawget (regT2.state.tables.getD 0 []) "new" = some (.centry ⟨"T2", []⟩) ∧
    regT1.statics = ⟨"Obj", true⟩ ∧ regT2.statics = ⟨"Obj", true⟩ ∧
    regT1.store = [methodClosure "T1" [] .tInt semA] ∧
    regT2.store = [methodClosure "T2" [] .tInt semB] :=
  ⟨rfl, rfl, rfl, rfl, rfl, rfl, rfl, rfl, rfl⟩

/-- Claim C8: when two member descriptors carry the same name (a field named
`value`, then a method bound later under the same name), members are bound in
the order supplied (the store receives setter, getter, then method), each
binding raw-sets its entry, the later binding shadows the earlier one, and
the type tag entry for `value` resolves to the later-bound callable only. -/
theorem name_collision_last_wins {ι : Type} (cls nReg : String)
    (cfgArgs argTys : List CppType) (fTy retTy : CppType) (dm : DataMember ι)
    (sem : ι → List RtVal → ι × RtVal) :
    let r := registerClass ⟨cls, cfgArgs⟩ (initStateWithMeta ι nReg) nReg
      ClassStatics.init []
      [("value", .var fTy dm), ("value", .method argTys retTy sem)]
    Table.rawget (r.state.tables.getD 0 []) "value" =
      some (.cfun (methodClosure cls argTys retTy sem)) ∧
    r.store = [setterClosure cls fTy dm, getterClosure cls fTy dm.read,
               methodClosure cls argTys retTy sem] := by
  constructor <;>
    simp [registerClass, registerBody, addMembersL, addMember, initStateWithMeta,
      LuaState.getmetatable, LuaState.registryLookup, LuaState.pushstring,
      LuaState.push, LuaState.pushvalue, LuaState.rawset, LuaState.pop,
      Table.rawsetK, Table.rawget]

/-- Claim C9: `copy(targetBuffer, sourceInstance)` placement-constructs a
copy of the source in the target buffer via the copy constructor, and reading
every registered field of the new instance through the synthesized getters
(`x`, `y`, installed by registration) yields values equal to reading the same
fields directly from the source instance. -/
theorem copy_preserves_fields (s : LuaState Point) (uid : Nat) (p : Point)
    (h : uid < s.userdatas.length) :
    let r := registerClass ⟨"Point", [.tInt, .tInt]⟩ (initStateWithMeta Point "Point")
      "Point" ClassStatics.init []
      [("x", .var .tInt Point.xMember), ("y", .var .tInt Point.yMember)]
    let mt := r.state.tables.getD 0 []
    ((Class.copy s uid p).userdatas.get? uid).map Userdata.payload = some (some p) ∧
    Table.rawget mt "x" = some (.cfun (getterClosure "Point" .tInt Point.xMember.read)) ∧
    Table.rawget mt "y" = some (.cfun (getterClosure "Point" .tInt Point.yMember.read)) ∧
    (getterClosure "Point" .tInt Point.xMember.read).sem p [] = (p, .int p.x) ∧
    (getterClosure "Point" .tInt Point.yMember.read).sem p [] = (p, .int p.y) := by
  refine ⟨?_, rfl, rfl, ?_, ?_⟩
  · simp [Class.copy, LuaState.udWrite, get?_set_lt _ _ _ h]
  · simp [getterClosure, Point.xMember]
  · simp [getterClosure, Point.yMember]

/-- `copy_preserves_fields` evaluated at copying `Point.mk 5 7` into a
one-buffer state. -/
theorem copy_preserves_fields_witness :
    0 < copyDemoState.userdatas.length ∧
    (let r := registerClass ⟨"Point", [.tInt, .tInt]⟩ (initStateWithMeta Point "Point")
       "Point" ClassStatics.init []
       [("x", .var .tInt Point.xMember), ("y", .var .tInt Point.yMember)]
     let mt := r.state.tables.getD 0 []
     ((Class.copy copyDemoState 0 (Point.mk 5 7)).userdatas.get? 0).map Userdata.payload =
       some (some (Point.mk 5 7)) ∧
     Table.rawget mt "x" = some (.cfun (getterClosure "Point" .tInt Point.xMember.read)) ∧
     Table.rawget mt "y" = some (.cfun (getterClosure "Point" .tInt Point.yMember.read)) ∧
     (getterClosure "Point" .tInt Point.xMember.read).sem (Point.mk 5 7) [] =
       (Point.mk 5 7, .int (Point.mk 5 7).x) ∧
     (getterClosure "Point" .tInt Point.yMember.read).sem (Point.mk 5 7) [] =
       (Point.mk 5 7, .int (Point.mk 5 7).y)) :=
  ⟨by decide, copy_preserves_fields copyDemoState 0 (Point.mk 5 7) (by decide)⟩

/-- Claim C10: registration has zero net effect on the runtime's value stack —
the constructor pushes the metatable, every installed entry pushes one name
and one callable which the raw-set consumes, and the metatable is popped
before the constructor returns, so the stack on exit equals the stack on
entry. -/
theorem registration_stack_balanced {ι : Type} (cfg : RegConfig) (s : LuaState ι)
    (n : String) (prior : ClassStatics) (fns : List (Closure ι))
    (mems : List (String × MemDesc ι)) (tid : Nat)
    (hreg : LuaState.registryLookup s.registry n = some tid) :
    (registerClass cfg s n prior fns mems).state.stack = s.stack := by
  unfold registerClass registerBody
  have hshape :
      ((((((s.getmetatable n).pushstring "__index").pushvalue 1).rawset).pushstring
        "new").push (.centry ⟨cfg.cls, cfg.ctorArgs⟩)).rawset.stack
        = .table tid :: s.stack := by
    simp [LuaState.getmetatable, hreg, LuaState.pushstring, LuaState.push,
      LuaState.pushvalue, LuaState.rawset]
  simp only []
  have := addMembersL_stack cfg mems _ fns tid s.stack hshape
  simp [LuaState.pop, this]

/-- `registration_stack_balanced` evaluated at a one-method registration
starting from the empty stack. -/
theorem registration_stack_balanced_witness :
    LuaState.registryLookup (initStateWithMeta Unit "C").registry "C" = some 0 ∧
    (registerClass ⟨"T", []⟩ (initStateWithMeta Unit "C") "C" ClassStatics.init []
      [("m", .method [] .void stackDemoSem)]).state.stack =
      (initStateWithMeta Unit "C").stack :=
  ⟨rfl, registration_stack_balanced ⟨"T", []⟩ (initStateWithMeta Unit "C") "C"
    ClassStatics.init [] [("m", .method [] .void stackDemoSem)] 0 rfl⟩

end Luapp
